import Mathlib

/-!
# Discount service: shallow embedding and verification

This file embeds the discount-composition engine of the discount-service
repository (`discount_service.py`, `models.py`) into Lean 4 and proves the
specified properties about it.

Monetary values (Python `Decimal`, exact decimal arithmetic) are modelled by
`ℚ`; quantities (Python `int`) by `ℤ`.  Python `dict`s keyed by discount
display name are modelled by association lists together with `dictSet` /
`dictUpdate`, which reproduce Python dict insertion-order semantics:
assigning to an existing key overwrites the value in place, assigning to a
fresh key appends, and `d.update(other)` performs that assignment for each
entry of `other` in order.
-/

/-- Enumeration for product brand tiers (`models.BrandTier`). -/
inductive BrandTier where
  | PREMIUM
  | REGULAR
  | BUDGET
deriving DecidableEq, Repr

/-- A product in the catalog (`models.Product`). -/
structure Product where
  id : String
  brand : String
  brand_tier : BrandTier
  category : String
  base_price : ℚ
  current_price : ℚ
deriving DecidableEq, Repr

/-- An item in the shopping cart (`models.CartItem`). -/
structure CartItem where
  product : Product
  quantity : ℤ
  size : String
deriving DecidableEq, Repr

/-- Payment method and bank/card details (`models.PaymentInfo`). -/
structure PaymentInfo where
  method : String
  bank_name : Option String
  card_type : Option String
deriving DecidableEq, Repr

/-- A customer profile (`models.CustomerProfile`).  `member_since` is an
opaque timestamp, modelled as an integer. -/
structure CustomerProfile where
  id : String
  tier : String
  member_since : ℤ
  total_purchases : ℚ
deriving DecidableEq, Repr

/-- Result of a discount calculation (`models.DiscountedPrice`). -/
structure DiscountedPrice where
  original_price : ℚ
  final_price : ℚ
  applied_discounts : List (String × ℚ)
  message : String
deriving DecidableEq, Repr

/-- A brand rule: percentage, display name, optional brand-wide minimum
purchase (an entry of `BRAND_DISCOUNTS`). -/
structure BrandRule where
  discount : ℚ
  name : String
  min_purchase : Option ℚ
deriving DecidableEq, Repr

/-- A category rule: percentage, display name, excluded brands (an entry of
`CATEGORY_DISCOUNTS`; a missing `excluded_brands` key is the empty list). -/
structure CategoryRule where
  discount : ℚ
  name : String
  excluded_brands : List String
deriving DecidableEq, Repr

/-- A bank rule: percentage, display name, optional minimum order purchase
(an entry of `BANK_OFFERS`). -/
structure BankRule where
  discount : ℚ
  name : String
  min_purchase : Option ℚ
deriving DecidableEq, Repr

/-- A voucher rule: percentage, display name, optional maximum discount cap,
optional required customer tier (an entry of `VOUCHER_CODES`). -/
structure VoucherRule where
  discount : ℚ
  name : String
  max_discount : Option ℚ
  required_tier : Option String
deriving DecidableEq, Repr

/-- Lookup in a Python dict modelled as an association list (keys are
unique, so first match is the match). -/
def dictGet {α : Type} : List (String × α) → String → Option α
  | [], _ => none
  | (k1, v1) :: rest, k => if k1 = k then some v1 else dictGet rest k

/-- `d.get(k, dflt)`. -/
def dictGetD {α : Type} (d : List (String × α)) (k : String) (dflt : α) : α :=
  match dictGet d k with
  | some v => v
  | none => dflt

/-- `k in d`. -/
def dictMem {α : Type} (d : List (String × α)) (k : String) : Bool :=
  match dictGet d k with
  | some _ => true
  | none => false

/-- `d[k] = v`: overwrite in place when the key exists, append otherwise
(Python dict assignment preserves insertion order of existing keys). -/
def dictSet {α : Type} (d : List (String × α)) (k : String) (v : α) : List (String × α) :=
  if dictMem d k then d.map (fun p => if p.1 = k then (k, v) else p)
  else d ++ [(k, v)]

/-- `d.update(other)`: assign each entry of `other`, in order. -/
def dictUpdate {α : Type} (d other : List (String × α)) : List (String × α) :=
  other.foldl (fun acc p => dictSet acc p.1 p.2) d

/-- Keys of a dict, in insertion order. -/
def dictKeys {α : Type} (d : List (String × α)) : List String :=
  d.map Prod.fst

/-- `sum(d.values())`. -/
def dictSum (d : List (String × ℚ)) : ℚ :=
  (d.map Prod.snd).sum

/-- The four static rule tables, bundled.  In the source they are module
constants (`BRAND_DISCOUNTS` …); the specification calls them configuration
data, so the pipeline is parametrised by them and instantiated at the
production tables below. -/
structure RuleTables where
  brand : List (String × BrandRule)
  category : List (String × CategoryRule)
  bank : List (String × BankRule)
  voucher : List (String × VoucherRule)
deriving DecidableEq, Repr

/-- `BRAND_DISCOUNTS` from `discount_service.py`. -/
def BRAND_DISCOUNTS : List (String × BrandRule) :=
  [("PUMA", { discount := 40, name := "Min 40% off on PUMA", min_purchase := none }),
   ("Nike", { discount := 30, name := "30% off on Nike", min_purchase := some 2000 })]

/-- `CATEGORY_DISCOUNTS` from `discount_service.py`. -/
def CATEGORY_DISCOUNTS : List (String × CategoryRule) :=
  [("T-shirts", { discount := 10, name := "Extra 10% off on T-shirts", excluded_brands := [] }),
   ("Jeans", { discount := 15, name := "15% off on Jeans", excluded_brands := ["Levis"] })]

/-- `BANK_OFFERS` from `discount_service.py`. -/
def BANK_OFFERS : List (String × BankRule) :=
  [("ICICI", { discount := 10, name := "ICICI - 10% instant discount", min_purchase := some 1000 }),
   ("HDFC", { discount := 15, name := "HDFC - 15% instant discount", min_purchase := some 2000 })]

/-- `VOUCHER_CODES` from `discount_service.py`. -/
def VOUCHER_CODES : List (String × VoucherRule) :=
  [("SUPER69", { discount := 69, name := "Super Sale Voucher", max_discount := some 5000,
                 required_tier := none }),
   ("VIP20", { discount := 20, name := "Premium Member Voucher", max_discount := none,
               required_tier := some "PREMIUM" })]

/-- The production configuration. -/
def productionTables : RuleTables :=
  { brand := BRAND_DISCOUNTS, category := CATEGORY_DISCOUNTS,
    bank := BANK_OFFERS, voucher := VOUCHER_CODES }

/-- Worker for `_apply_brand_discounts`: iterates over the remaining items
with the accumulated mapping; `cart` stays the full cart because the
minimum-purchase check sums over all items of the brand in the whole cart. -/
def applyBrandDiscountsAux (table : List (String × BrandRule)) (cart : List CartItem) :
    List CartItem → List (String × ℚ) → List (String × ℚ)
  | [], acc => acc
  | item :: rest, acc =>
    match dictGet table item.product.brand with
    | none => applyBrandDiscountsAux table cart rest acc
    | some rule =>
      let brandTotal : ℚ :=
        ((cart.filter (fun ci => ci.product.brand = item.product.brand)).map
          (fun ci => ci.product.base_price * (ci.quantity : ℚ))).sum
      let skip : Bool :=
        match rule.min_purchase with
        | some mp => brandTotal < mp
        | none => false
      if skip then applyBrandDiscountsAux table cart rest acc
      else
        let amount := item.product.base_price * (item.quantity : ℚ) * rule.discount / 100
        applyBrandDiscountsAux table cart rest
          (dictSet acc rule.name (dictGetD acc rule.name 0 + amount))

/-- `DiscountService._apply_brand_discounts`. -/
def applyBrandDiscounts (table : List (String × BrandRule)) (cart : List CartItem) :
    List (String × ℚ) :=
  applyBrandDiscountsAux table cart cart []

/-- Worker for `_apply_category_discounts`. -/
def applyCategoryDiscountsAux (table : List (String × CategoryRule)) :
    List CartItem → List (String × ℚ) → List (String × ℚ)
  | [], acc => acc
  | item :: rest, acc =>
    match dictGet table item.product.category with
    | none => applyCategoryDiscountsAux table rest acc
    | some rule =>
      if item.product.brand ∈ rule.excluded_brands then
        applyCategoryDiscountsAux table rest acc
      else
        let amount := item.product.current_price * (item.quantity : ℚ) * rule.discount / 100
        applyCategoryDiscountsAux table rest
          (dictSet acc rule.name (dictGetD acc rule.name 0 + amount))

/-- `DiscountService._apply_category_discounts`. -/
def applyCategoryDiscounts (table : List (String × CategoryRule)) (cart : List CartItem) :
    List (String × ℚ) :=
  applyCategoryDiscountsAux table cart []

/-- `DiscountService._apply_voucher_discount`. -/
def applyVoucherDiscount (table : List (String × VoucherRule)) (voucher_code : String)
    (customer : CustomerProfile) (original_price : ℚ) (existing : List (String × ℚ)) :
    List (String × ℚ) :=
  match dictGet table voucher_code with
  | none => []
  | some rule =>
    let tierMismatch : Bool :=
      match rule.required_tier with
      | some t => customer.tier ≠ t
      | none => false
    if tierMismatch then []
    else
      let total_after_discounts := original_price - dictSum existing
      let voucher_discount := total_after_discounts * rule.discount / 100
      let voucher_discount :=
        match rule.max_discount with
        | some cap => if voucher_discount > cap then cap else voucher_discount
        | none => voucher_discount
      [("Voucher " ++ voucher_code, voucher_discount)]

/-- `DiscountService._apply_bank_offer`. -/
def applyBankOffer (table : List (String × BankRule)) (payment_info : PaymentInfo)
    (original_price : ℚ) (existing : List (String × ℚ)) : List (String × ℚ) :=
  match payment_info.bank_name with
  | none => []
  | some bank =>
    if payment_info.method = "CARD" then
      match dictGet table bank with
      | none => []
      | some rule =>
        let skip : Bool :=
          match rule.min_purchase with
          | some mp => original_price < mp
          | none => false
        if skip then []
        else
          let total_after_discounts := original_price - dictSum existing
          [(rule.name, total_after_discounts * rule.discount / 100)]
    else []

/-- Round a rational to an integer, half to even (the rounding mode of
Python `Decimal`'s default context, used by `quantize` and string
formatting). -/
def roundHalfEven (q : ℚ) : ℤ :=
  if q - (⌊q⌋ : ℚ) < 1 / 2 then ⌊q⌋
  else if 1 / 2 < q - (⌊q⌋ : ℚ) then ⌊q⌋ + 1
  else if ⌊q⌋ % 2 = 0 then ⌊q⌋ else ⌊q⌋ + 1

/-- `x.quantize(Decimal('0.01'))`: round to 2 decimal places, half to even. -/
def quantize2 (q : ℚ) : ℚ :=
  (roundHalfEven (100 * q) : ℚ) / 100

/-- Left-pad a string with zeros. -/
def padZeros (len : Nat) (s : String) : String :=
  if s.length < len then String.mk (List.replicate (len - s.length) '0') ++ s else s

/-- Fixed-point formatting of a rational with `digits` decimal places,
rounding half to even — the behaviour of Python format `:.Nf` on `Decimal`
under the default context. -/
def fmtFixed (digits : Nat) (q : ℚ) : String :=
  let scale : ℤ := (10 : ℤ) ^ digits
  let n := roundHalfEven ((scale : ℚ) * q)
  let a := n.natAbs
  let ip := a / scale.toNat
  let fp := a % scale.toNat
  let sign := if n < 0 then "-" else ""
  if digits = 0 then sign ++ toString ip
  else sign ++ toString ip ++ "." ++ padZeros digits (toString fp)

/-- The message built by `_build_discounted_price_response`. -/
def buildMessage (original_price : ℚ) (applied : List (String × ℚ)) : String :=
  if applied = [] then "No discounts applied"
  else
    let total_discount := dictSum applied
    let savings_percent := if original_price > 0 then total_discount / original_price * 100 else 0
    let line1 := "You saved ₹" ++ fmtFixed 2 total_discount ++ " ("
      ++ fmtFixed 1 savings_percent ++ "%)!"
    let line2 := "Applied: " ++ String.intercalate ", "
      (applied.map (fun p => p.1 ++ ": ₹" ++ fmtFixed 2 p.2))
    line1 ++ " " ++ line2

/-- `DiscountService._build_discounted_price_response`. -/
def buildDiscountedPriceResponse (original_price : ℚ) (applied : List (String × ℚ)) :
    DiscountedPrice :=
  let total_discount := dictSum applied
  let final_price := original_price - total_discount
  let final_price := if final_price < 0 then 0 else final_price
  { original_price := original_price
    final_price := quantize2 final_price
    applied_discounts := applied
    message := buildMessage original_price applied }

/-- The input-validation loop of `calculate_cart_discounts` (lines 55-59):
returns the first error message raised, if any. -/
def validateItems : List CartItem → Option String
  | [] => none
  | item :: rest =>
    if item.quantity < 0 then some "Cart item quantity cannot be negative."
    else if item.product.base_price < 0 ∨ item.product.current_price < 0 then
      some "Product price cannot be negative."
    else validateItems rest

/-- `original_price = sum(item.product.base_price * item.quantity ...)`. -/
def originalPriceOf (cart : List CartItem) : ℚ :=
  (cart.map (fun item => item.product.base_price * (item.quantity : ℚ))).sum

/-- The discount-accumulation part of `calculate_cart_discounts`
(lines 62-78): brand and category merged with `update`, then the voucher
(only when the code is present and non-empty — Python truthiness), then the
bank offer (only when payment info is present). -/
def pipelineDiscounts (tables : RuleTables) (cart : List CartItem)
    (customer : CustomerProfile) (payment_info : Option PaymentInfo)
    (voucher_code : Option String) : List (String × ℚ) :=
  let original_price := originalPriceOf cart
  let applied1 := dictUpdate (dictUpdate [] (applyBrandDiscounts tables.brand cart))
      (applyCategoryDiscounts tables.category cart)
  let applied2 :=
    match voucher_code with
    | some code =>
      if code = "" then applied1
      else dictUpdate applied1
        (applyVoucherDiscount tables.voucher code customer original_price applied1)
    | none => applied1
  match payment_info with
  | some p => dictUpdate applied2 (applyBankOffer tables.bank p original_price applied2)
  | none => applied2

/-- `DiscountService.calculate_cart_discounts`, parametrised by the rule
tables.  A raised `ValueError` is modelled as `Except.error` carrying the
message. -/
def calculateCartDiscountsWith (tables : RuleTables) (cart_items : List CartItem)
    (customer : CustomerProfile) (payment_info : Option PaymentInfo)
    (voucher_code : Option String) : Except String DiscountedPrice :=
  if cart_items = [] then
    .ok { original_price := 0, final_price := 0, applied_discounts := [],
          message := "Empty cart" }
  else
    match validateItems cart_items with
    | some e => .error e
    | none =>
      .ok (buildDiscountedPriceResponse (originalPriceOf cart_items)
        (pipelineDiscounts tables cart_items customer payment_info voucher_code))

/-- `DiscountService.calculate_cart_discounts` at the production tables. -/
def calculate_cart_discounts (cart_items : List CartItem) (customer : CustomerProfile)
    (payment_info : Option PaymentInfo) (voucher_code : Option String) :
    Except String DiscountedPrice :=
  calculateCartDiscountsWith productionTables cart_items customer payment_info voucher_code

/-- `DiscountService.validate_discount_code`. -/
def validate_discount_code (code : String) (cart_items : List CartItem)
    (customer : CustomerProfile) : Bool :=
  match dictGet VOUCHER_CODES code with
  | none => false
  | some rule =>
    match rule.required_tier with
    | some t => if customer.tier ≠ t then false else true
    | none => true

/-- The merged brand+category mapping (`applied_discounts` after step 1 of
`calculate_cart_discounts`, lines 62-66). -/
def brandcatMap (cart : List CartItem) : List (String × ℚ) :=
  dictUpdate (dictUpdate [] (applyBrandDiscounts BRAND_DISCOUNTS cart))
    (applyCategoryDiscounts CATEGORY_DISCOUNTS cart)

/-- The `original_price` of a pricing result, `0` on error (accessor used
to state theorems without naming the whole result record). -/
def resOriginal (r : Except String DiscountedPrice) : ℚ :=
  match r with
  | .ok d => d.original_price
  | .error _ => 0

/-- The `final_price` of a pricing result, `0` on error. -/
def resFinal (r : Except String DiscountedPrice) : ℚ :=
  match r with
  | .ok d => d.final_price
  | .error _ => 0

/-- The `applied_discounts` of a pricing result, empty on error. -/
def resDiscounts (r : Except String DiscountedPrice) : List (String × ℚ) :=
  match r with
  | .ok d => d.applied_discounts
  | .error _ => []

/-! ## Association-list (Python dict) lemmas -/

theorem dictGet_mem {α : Type} :
    ∀ (d : List (String × α)) (k : String) (v : α), dictGet d k = some v → (k, v) ∈ d := by
  intro d
  induction d with
  | nil => intro k v h; simp [dictGet] at h
  | cons p rest ih =>
    intro k v h
    obtain ⟨k1, v1⟩ := p
    by_cases hk : k1 = k
    · subst hk
      simp [dictGet] at h
      subst h
      exact List.mem_cons_self _ _
    · simp [dictGet, hk] at h
      exact List.mem_cons_of_mem _ (ih k v h)

theorem dictKeys_cons {α : Type} (p : String × α) (rest : List (String × α)) :
    dictKeys (p :: rest) = p.1 :: dictKeys rest := rfl

theorem dictGet_cons {α : Type} (k1 : String) (v1 : α) (rest : List (String × α)) (k : String) :
    dictGet ((k1, v1) :: rest) k = if k1 = k then some v1 else dictGet rest k := rfl

theorem dictMem_cons {α : Type} (k1 : String) (v1 : α) (rest : List (String × α)) (k : String) :
    dictMem ((k1, v1) :: rest) k = if k1 = k then true else dictMem rest k := by
  by_cases h : k1 = k <;> simp [dictMem, dictGet, h]

theorem dictMem_iff {α : Type} :
    ∀ (d : List (String × α)) (k : String), dictMem d k = true ↔ k ∈ dictKeys d := by
  intro d
  induction d with
  | nil => intro k; simp [dictMem, dictGet, dictKeys]
  | cons p rest ih =>
    intro k
    obtain ⟨k1, v1⟩ := p
    rw [dictMem_cons, dictKeys_cons, List.mem_cons]
    by_cases h : k1 = k
    · simp [h]
    · rw [if_neg h, ih k]
      constructor
      · exact fun hm => Or.inr hm
      · rintro (he | hm)
        · exact absurd he.symm h
        · exact hm

theorem dictMem_eq_false {α : Type} (d : List (String × α)) (k : String)
    (h : k ∉ dictKeys d) : dictMem d k = false := by
  cases hb : dictMem d k with
  | false => rfl
  | true => exact absurd ((dictMem_iff d k).mp hb) h

theorem dictSet_of_not_mem {α : Type} (d : List (String × α)) (k : String) (v : α)
    (h : k ∉ dictKeys d) : dictSet d k v = d ++ [(k, v)] := by
  simp [dictSet, dictMem_eq_false d k h]

theorem dictKeys_append {α : Type} (a b : List (String × α)) :
    dictKeys (a ++ b) = dictKeys a ++ dictKeys b := by
  simp [dictKeys]

theorem dictSum_append (a b : List (String × ℚ)) :
    dictSum (a ++ b) = dictSum a + dictSum b := by
  simp [dictSum]

theorem dictSum_single (k : String) (v : ℚ) : dictSum [(k, v)] = v := by
  simp [dictSum]

theorem dictUpdate_nil {α : Type} (d : List (String × α)) : dictUpdate d [] = d := rfl

theorem dictUpdate_eq_append {α : Type} :
    ∀ (other d : List (String × α)), (dictKeys other).Nodup →
      (∀ k ∈ dictKeys other, k ∉ dictKeys d) → dictUpdate d other = d ++ other := by
  intro other
  induction other with
  | nil => intro d _ _; simp [dictUpdate]
  | cons p rest ih =>
    intro d hnd hdisj
    obtain ⟨k, v⟩ := p
    have hk : k ∉ dictKeys d := hdisj k (by rw [dictKeys_cons]; exact List.mem_cons_self _ _)
    have hstep : dictUpdate d ((k, v) :: rest) = dictUpdate (dictSet d k v) rest := rfl
    rw [dictKeys_cons, List.nodup_cons] at hnd
    rw [hstep, dictSet_of_not_mem d k v hk, ih (d ++ [(k, v)]) hnd.2]
    · simp
    · intro k2 hk2
      rw [dictKeys_append]
      rw [List.mem_append]
      rintro (hin | hin)
      · exact hdisj k2 (by rw [dictKeys_cons]; exact List.mem_cons_of_mem _ hk2) hin
      · have he : k2 = k := by simpa [dictKeys] using hin
        rw [he] at hk2
        exact hnd.1 hk2

theorem dictKeys_dictSet {α : Type} (d : List (String × α)) (k : String) (v : α) :
    (dictMem d k = true ∧ dictKeys (dictSet d k v) = dictKeys d) ∨
      (k ∉ dictKeys d ∧ dictKeys (dictSet d k v) = dictKeys d ++ [k]) := by
  by_cases h : dictMem d k = true
  · left
    refine ⟨h, ?_⟩
    unfold dictSet
    rw [if_pos h]
    unfold dictKeys
    rw [List.map_map]
    apply List.map_congr_left
    intro p _
    by_cases hp : p.1 = k
    · simp [hp]
    · simp [hp]
  · right
    have hk : k ∉ dictKeys d := fun hc => h ((dictMem_iff d k).mpr hc)
    refine ⟨hk, ?_⟩
    rw [dictSet_of_not_mem d k v hk, dictKeys_append]
    rfl

theorem mem_dictKeys_dictSet {α : Type} {d : List (String × α)} {k k2 : String} {v : α}
    (h : k2 ∈ dictKeys (dictSet d k v)) : k2 ∈ dictKeys d ∨ k2 = k := by
  rcases dictKeys_dictSet d k v with ⟨_, he⟩ | ⟨_, he⟩ <;> rw [he] at h
  · exact Or.inl h
  · rcases List.mem_append.mp h with hin | hin
    · exact Or.inl hin
    · right; simpa using hin

theorem nodup_dictKeys_dictSet {α : Type} {d : List (String × α)} (k : String) (v : α)
    (h : (dictKeys d).Nodup) : (dictKeys (dictSet d k v)).Nodup := by
  rcases dictKeys_dictSet d k v with ⟨_, he⟩ | ⟨hk, he⟩ <;> rw [he]
  · exact h
  · exact List.Nodup.append h (List.nodup_singleton k)
      (by intro a ha hb; simp at hb; rw [hb] at ha; exact hk ha)

theorem forall_dictSet_of {α : Type} {P : String × α → Prop} {d : List (String × α)}
    {k : String} {v : α} (hd : ∀ p ∈ d, P p) (hkv : P (k, v)) :
    ∀ p ∈ dictSet d k v, P p := by
  intro p hp
  unfold dictSet at hp
  split at hp
  · rw [List.mem_map] at hp
    obtain ⟨q, hq, hqe⟩ := hp
    by_cases hqk : q.1 = k
    · simp [hqk] at hqe
      exact hqe ▸ hkv
    · simp [hqk] at hqe
      exact hqe ▸ hd q hq
  · rcases List.mem_append.mp hp with h | h
    · exact hd p h
    · simp at h
      exact h ▸ hkv

theorem dictGetD_nonneg {d : List (String × ℚ)} {k : String}
    (hd : ∀ p ∈ d, 0 ≤ p.2) : 0 ≤ dictGetD d k 0 := by
  unfold dictGetD
  cases hg : dictGet d k with
  | none => simp
  | some v => exact hd (k, v) (dictGet_mem d k v hg)

theorem dictSum_nonneg {d : List (String × ℚ)} (hd : ∀ p ∈ d, 0 ≤ p.2) : 0 ≤ dictSum d := by
  unfold dictSum
  apply List.sum_nonneg
  intro x hx
  rw [List.mem_map] at hx
  obtain ⟨p, hp, hpe⟩ := hx
  exact hpe ▸ hd p hp

/-! ## Invariants of the brand/category accumulation loops -/

theorem applyBrandDiscountsAux_keys (table : List (String × BrandRule)) (cart : List CartItem)
    (Q : String → Prop) (hQ : ∀ b r, dictGet table b = some r → Q r.name) :
    ∀ (rest : List CartItem) (acc : List (String × ℚ)), (∀ k ∈ dictKeys acc, Q k) →
      ∀ k ∈ dictKeys (applyBrandDiscountsAux table cart rest acc), Q k := by
  intro rest
  induction rest with
  | nil => intro acc hacc; exact hacc
  | cons item rest ih =>
    intro acc hacc
    unfold applyBrandDiscountsAux
    cases hg : dictGet table item.product.brand with
    | none => exact ih acc hacc
    | some rule =>
      simp only
      split
      · exact ih acc hacc
      · apply ih
        intro k hk
        rcases mem_dictKeys_dictSet hk with h | h
        · exact hacc k h
        · exact h ▸ hQ _ rule hg

theorem applyBrandDiscountsAux_nodup (table : List (String × BrandRule)) (cart : List CartItem) :
    ∀ (rest : List CartItem) (acc : List (String × ℚ)), (dictKeys acc).Nodup →
      (dictKeys (applyBrandDiscountsAux table cart rest acc)).Nodup := by
  intro rest
  induction rest with
  | nil => intro acc hacc; exact hacc
  | cons item rest ih =>
    intro acc hacc
    unfold applyBrandDiscountsAux
    cases hg : dictGet table item.product.brand with
    | none => exact ih acc hacc
    | some rule =>
      simp only
      split
      · exact ih acc hacc
      · exact ih _ (nodup_dictKeys_dictSet _ _ hacc)

theorem applyBrandDiscountsAux_nonneg (table : List (String × BrandRule)) (cart : List CartItem)
    (htab : ∀ b r, dictGet table b = some r → 0 ≤ r.discount) :
    ∀ (rest : List CartItem) (acc : List (String × ℚ)),
      (∀ i ∈ rest, 0 ≤ i.product.base_price ∧ 0 ≤ i.quantity) →
      (∀ p ∈ acc, 0 ≤ p.2) →
      ∀ p ∈ applyBrandDiscountsAux table cart rest acc, 0 ≤ p.2 := by
  intro rest
  induction rest with
  | nil => intro acc _ hacc; exact hacc
  | cons item rest ih =>
    intro acc hval hacc
    have hvi := hval item (List.mem_cons_self _ _)
    have hvr : ∀ i ∈ rest, 0 ≤ i.product.base_price ∧ 0 ≤ i.quantity :=
      fun i hi => hval i (List.mem_cons_of_mem _ hi)
    unfold applyBrandDiscountsAux
    cases hg : dictGet table item.product.brand with
    | none => exact ih acc hvr hacc
    | some rule =>
      simp only
      split
      · exact ih acc hvr hacc
      · apply ih _ hvr
        apply forall_dictSet_of hacc
        have hq : (0 : ℚ) ≤ (item.quantity : ℚ) := by exact_mod_cast hvi.2
        have hamt : 0 ≤ item.product.base_price * (item.quantity : ℚ) * rule.discount / 100 := by
          apply div_nonneg _ (by norm_num)
          exact mul_nonneg (mul_nonneg hvi.1 hq) (htab _ rule hg)
        exact add_nonneg (dictGetD_nonneg hacc) hamt

theorem applyCategoryDiscountsAux_keys (table : List (String × CategoryRule))
    (Q : String → Prop) (hQ : ∀ c r, dictGet table c = some r → Q r.name) :
    ∀ (rest : List CartItem) (acc : List (String × ℚ)), (∀ k ∈ dictKeys acc, Q k) →
      ∀ k ∈ dictKeys (applyCategoryDiscountsAux table rest acc), Q k := by
  intro rest
  induction rest with
  | nil => intro acc hacc; exact hacc
  | cons item rest ih =>
    intro acc hacc
    unfold applyCategoryDiscountsAux
    cases hg : dictGet table item.product.category with
    | none => exact ih acc hacc
    | some rule =>
      simp only
      split
      · exact ih acc hacc
      · apply ih
        intro k hk
        rcases mem_dictKeys_dictSet hk with h | h
        · exact hacc k h
        · exact h ▸ hQ _ rule hg

theorem applyCategoryDiscountsAux_nodup (table : List (String × CategoryRule)) :
    ∀ (rest : List CartItem) (acc : List (String × ℚ)), (dictKeys acc).Nodup →
      (dictKeys (applyCategoryDiscountsAux table rest acc)).Nodup := by
  intro rest
  induction rest with
  | nil => intro acc hacc; exact hacc
  | cons item rest ih =>
    intro acc hacc
    unfold applyCategoryDiscountsAux
    cases hg : dictGet table item.product.category with
    | none => exact ih acc hacc
    | some rule =>
      simp only
      split
      · exact ih acc hacc
      · exact ih _ (nodup_dictKeys_dictSet _ _ hacc)

theorem applyCategoryDiscountsAux_nonneg (table : List (String × CategoryRule))
    (htab : ∀ c r, dictGet table c = some r → 0 ≤ r.discount) :
    ∀ (rest : List CartItem) (acc : List (String × ℚ)),
      (∀ i ∈ rest, 0 ≤ i.product.current_price ∧ 0 ≤ i.quantity) →
      (∀ p ∈ acc, 0 ≤ p.2) →
      ∀ p ∈ applyCategoryDiscountsAux table rest acc, 0 ≤ p.2 := by
  intro rest
  induction rest with
  | nil => intro acc _ hacc; exact hacc
  | cons item rest ih =>
    intro acc hval hacc
    have hvi := hval item (List.mem_cons_self _ _)
    have hvr : ∀ i ∈ rest, 0 ≤ i.product.current_price ∧ 0 ≤ i.quantity :=
      fun i hi => hval i (List.mem_cons_of_mem _ hi)
    unfold applyCategoryDiscountsAux
    cases hg : dictGet table item.product.category with
    | none => exact ih acc hvr hacc
    | some rule =>
      simp only
      split
      · exact ih acc hvr hacc
      · apply ih _ hvr
        apply forall_dictSet_of hacc
        have hq : (0 : ℚ) ≤ (item.quantity : ℚ) := by exact_mod_cast hvi.2
        have hamt : 0 ≤ item.product.current_price * (item.quantity : ℚ) * rule.discount / 100 := by
          apply div_nonneg _ (by norm_num)
          exact mul_nonneg (mul_nonneg hvi.1 hq) (htab _ rule hg)
        exact add_nonneg (dictGetD_nonneg hacc) hamt

/-! ## Case analyses of the concrete production tables -/

theorem BRAND_rule_cases {b : String} {r : BrandRule}
    (h : dictGet BRAND_DISCOUNTS b = some r) :
    r = { discount := 40, name := "Min 40% off on PUMA", min_purchase := none } ∨
      r = { discount := 30, name := "30% off on Nike", min_purchase := some 2000 } := by
  unfold BRAND_DISCOUNTS at h
  rw [dictGet_cons] at h
  split at h
  · exact Or.inl (Option.some.inj h).symm
  · rw [dictGet_cons] at h
    split at h
    · exact Or.inr (Option.some.inj h).symm
    · simp [dictGet] at h

theorem CATEGORY_rule_cases {c : String} {r : CategoryRule}
    (h : dictGet CATEGORY_DISCOUNTS c = some r) :
    r = { discount := 10, name := "Extra 10% off on T-shirts", excluded_brands := [] } ∨
      r = { discount := 15, name := "15% off on Jeans", excluded_brands := ["Levis"] } := by
  unfold CATEGORY_DISCOUNTS at h
  rw [dictGet_cons] at h
  split at h
  · exact Or.inl (Option.some.inj h).symm
  · rw [dictGet_cons] at h
    split at h
    · exact Or.inr (Option.some.inj h).symm
    · simp [dictGet] at h

theorem BANK_rule_cases {b : String} {r : BankRule}
    (h : dictGet BANK_OFFERS b = some r) :
    r = { discount := 10, name := "ICICI - 10% instant discount", min_purchase := some 1000 } ∨
      r = { discount := 15, name := "HDFC - 15% instant discount", min_purchase := some 2000 } := by
  unfold BANK_OFFERS at h
  rw [dictGet_cons] at h
  split at h
  · exact Or.inl (Option.some.inj h).symm
  · rw [dictGet_cons] at h
    split at h
    · exact Or.inr (Option.some.inj h).symm
    · simp [dictGet] at h

theorem VOUCHER_rule_cases {code : String} {r : VoucherRule}
    (h : dictGet VOUCHER_CODES code = some r) :
    (code = "SUPER69" ∧
        r = { discount := 69, name := "Super Sale Voucher", max_discount := some 5000,
              required_tier := none }) ∨
      (code = "VIP20" ∧
        r = { discount := 20, name := "Premium Member Voucher", max_discount := none,
              required_tier := some "PREMIUM" }) := by
  unfold VOUCHER_CODES at h
  rw [dictGet_cons] at h
  split at h
  · rename_i he
    exact Or.inl ⟨he.symm, (Option.some.inj h).symm⟩
  · rw [dictGet_cons] at h
    split at h
    · rename_i he
      exact Or.inr ⟨he.symm, (Option.some.inj h).symm⟩
    · simp [dictGet] at h

/-! ## Structure of the merged brand+category mapping -/

theorem brandDiscounts_keys (cart : List CartItem) :
    ∀ k ∈ dictKeys (applyBrandDiscounts BRAND_DISCOUNTS cart),
      k = "Min 40% off on PUMA" ∨ k = "30% off on Nike" := by
  apply applyBrandDiscountsAux_keys
  · intro b r h
    rcases BRAND_rule_cases h with he | he <;> rw [he] <;> simp
  · intro k hk
    simp [dictKeys] at hk

theorem categoryDiscounts_keys (cart : List CartItem) :
    ∀ k ∈ dictKeys (applyCategoryDiscounts CATEGORY_DISCOUNTS cart),
      k = "Extra 10% off on T-shirts" ∨ k = "15% off on Jeans" := by
  apply applyCategoryDiscountsAux_keys
  · intro c r h
    rcases CATEGORY_rule_cases h with he | he <;> rw [he] <;> simp
  · intro k hk
    simp [dictKeys] at hk

theorem brandcatMap_eq (cart : List CartItem) :
    brandcatMap cart
      = applyBrandDiscounts BRAND_DISCOUNTS cart ++ applyCategoryDiscounts CATEGORY_DISCOUNTS cart := by
  unfold brandcatMap
  have hbn : (dictKeys (applyBrandDiscounts BRAND_DISCOUNTS cart)).Nodup := by
    apply applyBrandDiscountsAux_nodup
    simp [dictKeys]
  have hcn : (dictKeys (applyCategoryDiscounts CATEGORY_DISCOUNTS cart)).Nodup := by
    apply applyCategoryDiscountsAux_nodup
    simp [dictKeys]
  rw [dictUpdate_eq_append _ [] hbn (by intro k _; simp [dictKeys]), List.nil_append]
  rw [dictUpdate_eq_append _ _ hcn]
  intro k hk hmem
  rcases categoryDiscounts_keys cart k hk with he | he <;>
    rcases brandDiscounts_keys cart k hmem with he2 | he2 <;> rw [he] at he2 <;> simp at he2

theorem brandcatMap_keys (cart : List CartItem) :
    ∀ k ∈ dictKeys (brandcatMap cart),
      k = "Min 40% off on PUMA" ∨ k = "30% off on Nike" ∨
        k = "Extra 10% off on T-shirts" ∨ k = "15% off on Jeans" := by
  intro k hk
  rw [brandcatMap_eq, dictKeys_append, List.mem_append] at hk
  rcases hk with hk | hk
  · rcases brandDiscounts_keys cart k hk with he | he
    · exact Or.inl he
    · exact Or.inr (Or.inl he)
  · rcases categoryDiscounts_keys cart k hk with he | he
    · exact Or.inr (Or.inr (Or.inl he))
    · exact Or.inr (Or.inr (Or.inr he))

theorem validateItems_eq_none_iff (cart : List CartItem) :
    validateItems cart = none ↔
      ∀ i ∈ cart, 0 ≤ i.quantity ∧ 0 ≤ i.product.base_price ∧ 0 ≤ i.product.current_price := by
  induction cart with
  | nil => simp [validateItems]
  | cons item rest ih =>
    unfold validateItems
    by_cases h1 : item.quantity < 0
    · rw [if_pos h1]
      constructor
      · intro hc
        exact absurd hc (by simp)
      · intro hall
        exact absurd h1 (not_lt.mpr (hall item (List.mem_cons_self _ _)).1)
    · by_cases h2 : item.product.base_price < 0 ∨ item.product.current_price < 0
      · rw [if_neg h1, if_pos h2]
        constructor
        · intro hc
          exact absurd hc (by simp)
        · intro hall
          rcases h2 with h2 | h2
          · exact absurd h2 (not_lt.mpr (hall item (List.mem_cons_self _ _)).2.1)
          · exact absurd h2 (not_lt.mpr (hall item (List.mem_cons_self _ _)).2.2)
      · rw [if_neg h1, if_neg h2, ih]
        push_neg at h1 h2
        constructor
        · intro hall
          intro i hi
          rcases List.mem_cons.mp hi with he | hm
          · exact he ▸ ⟨h1, h2.1, h2.2⟩
          · exact hall i hm
        · intro hall i hi
          exact hall i (List.mem_cons_of_mem _ hi)

theorem brandcatMap_sum_nonneg (cart : List CartItem) (hval : validateItems cart = none) :
    0 ≤ dictSum (brandcatMap cart) := by
  rw [validateItems_eq_none_iff] at hval
  rw [brandcatMap_eq, dictSum_append]
  have hb : 0 ≤ dictSum (applyBrandDiscounts BRAND_DISCOUNTS cart) := by
    apply dictSum_nonneg
    apply applyBrandDiscountsAux_nonneg
    · intro b r h
      rcases BRAND_rule_cases h with he | he <;> rw [he] <;> norm_num
    · intro i hi
      exact ⟨(hval i hi).2.1, (hval i hi).1⟩
    · intro p hp
      simp at hp
  have hc : 0 ≤ dictSum (applyCategoryDiscounts CATEGORY_DISCOUNTS cart) := by
    apply dictSum_nonneg
    apply applyCategoryDiscountsAux_nonneg
    · intro c r h
      rcases CATEGORY_rule_cases h with he | he <;> rw [he] <;> norm_num
    · intro i hi
      exact ⟨(hval i hi).2.2, (hval i hi).1⟩
    · intro p hp
      simp at hp
  linarith

theorem originalPriceOf_nonneg (cart : List CartItem) (hval : validateItems cart = none) :
    0 ≤ originalPriceOf cart := by
  rw [validateItems_eq_none_iff] at hval
  unfold originalPriceOf
  apply List.sum_nonneg
  intro x hx
  rw [List.mem_map] at hx
  obtain ⟨i, hi, hie⟩ := hx
  have hq : (0 : ℚ) ≤ (i.quantity : ℚ) := by exact_mod_cast (hval i hi).1
  exact hie ▸ mul_nonneg (hval i hi).2.1 hq

/-! ## Properties of half-even rounding -/

theorem roundHalfEven_le (q : ℚ) : (roundHalfEven q : ℚ) ≤ q + 1 / 2 := by
  unfold roundHalfEven
  have h1 : (⌊q⌋ : ℚ) ≤ q := Int.floor_le q
  have h2 : q < ⌊q⌋ + 1 := Int.lt_floor_add_one q
  split_ifs with ha hb hc
  · linarith
  · push_cast
    linarith
  · linarith
  · push_cast
    linarith

theorem roundHalfEven_nonneg {q : ℚ} (h : 0 ≤ q) : 0 ≤ roundHalfEven q := by
  unfold roundHalfEven
  have h1 : 0 ≤ ⌊q⌋ := by
    rw [← Int.floor_intCast (α := ℚ) 0]
    exact Int.floor_le_floor (by exact_mod_cast h)
  split_ifs <;> omega

theorem roundHalfEven_mono {x y : ℚ} (h : x ≤ y) : roundHalfEven x ≤ roundHalfEven y := by
  unfold roundHalfEven
  have hfl : ⌊x⌋ ≤ ⌊y⌋ := Int.floor_le_floor h
  have hx1 : (⌊x⌋ : ℚ) ≤ x := Int.floor_le x
  have hx2 : x < ⌊x⌋ + 1 := Int.lt_floor_add_one x
  have hy1 : (⌊y⌋ : ℚ) ≤ y := Int.floor_le y
  have hy2 : y < ⌊y⌋ + 1 := Int.lt_floor_add_one y
  by_cases heq : ⌊x⌋ = ⌊y⌋
  · rw [heq]
    rw [heq] at hx1 hx2
    split_ifs <;> first | omega | (exfalso; linarith)
  · have hlt : ⌊x⌋ < ⌊y⌋ := lt_of_le_of_ne hfl heq
    split_ifs <;> omega

theorem roundHalfEven_le_int {q : ℚ} {m : ℤ} (h : q ≤ (m : ℚ)) : roundHalfEven q ≤ m := by
  have h1 : ⌊q⌋ ≤ m := by
    have := Int.floor_le_floor h
    rwa [Int.floor_intCast] at this
  by_cases he : ⌊q⌋ = m
  · have hr : q - (⌊q⌋ : ℚ) < 1 / 2 := by
      rw [he]
      linarith
    unfold roundHalfEven
    rw [if_pos hr]
    exact h1
  · have h2 : ⌊q⌋ + 1 ≤ m := by omega
    unfold roundHalfEven
    split_ifs <;> omega

theorem roundHalfEven_zero : roundHalfEven 0 = 0 := by
  unfold roundHalfEven
  norm_num

theorem quantize2_nonneg {q : ℚ} (h : 0 ≤ q) : 0 ≤ quantize2 q := by
  unfold quantize2
  have h1 : 0 ≤ roundHalfEven (100 * q) := roundHalfEven_nonneg (by linarith)
  have h2 : (0 : ℚ) ≤ (roundHalfEven (100 * q) : ℚ) := by exact_mod_cast h1
  linarith

theorem quantize2_le (q : ℚ) : quantize2 q ≤ q + 1 / 200 := by
  unfold quantize2
  have h1 : (roundHalfEven (100 * q) : ℚ) ≤ 100 * q + 1 / 2 := roundHalfEven_le (100 * q)
  linarith

theorem quantize2_mono {x y : ℚ} (h : x ≤ y) : quantize2 x ≤ quantize2 y := by
  unfold quantize2
  have h1 : roundHalfEven (100 * x) ≤ roundHalfEven (100 * y) :=
    roundHalfEven_mono (by linarith)
  have h2 : (roundHalfEven (100 * x) : ℚ) ≤ (roundHalfEven (100 * y) : ℚ) := by exact_mod_cast h1
  linarith

theorem quantize2_le_grid {q : ℚ} {n : ℤ} (h : q ≤ (n : ℚ) / 100) : quantize2 q ≤ (n : ℚ) / 100 := by
  unfold quantize2
  have h1 : roundHalfEven (100 * q) ≤ n := roundHalfEven_le_int (by linarith)
  have h2 : (roundHalfEven (100 * q) : ℚ) ≤ (n : ℚ) := by exact_mod_cast h1
  linarith

theorem quantize2_zero : quantize2 0 = 0 := by
  unfold quantize2
  rw [mul_zero, roundHalfEven_zero]
  norm_num

theorem ite_neg_eq_max (x : ℚ) : (if x < 0 then (0 : ℚ) else x) = max 0 x := by
  split_ifs with h
  · exact (max_eq_left (le_of_lt h)).symm
  · exact (max_eq_right (not_lt.mp h)).symm

/-! ## Characterisation of voucher and bank contributions (production tables) -/

theorem voucherDiscount_facts (code : String) (cust : CustomerProfile) (op : ℚ)
    (ex : List (String × ℚ)) :
    applyVoucherDiscount VOUCHER_CODES code cust op ex = [] ∨
      ∃ amt, applyVoucherDiscount VOUCHER_CODES code cust op ex = [("Voucher " ++ code, amt)] ∧
        (code = "SUPER69" ∨ code = "VIP20") ∧
        (0 ≤ op - dictSum ex → 0 ≤ amt ∧ amt ≤ op - dictSum ex) ∧
        (op - dictSum ex < 0 → amt ≤ 0 ∧ op - dictSum ex - amt ≤ 0) := by
  cases hg : dictGet VOUCHER_CODES code with
  | none =>
    left
    unfold applyVoucherDiscount
    rw [hg]
  | some rule =>
    rcases VOUCHER_rule_cases hg with ⟨hc, hr⟩ | ⟨hc, hr⟩
    · right
      subst hr
      refine ⟨if (op - dictSum ex) * 69 / 100 > 5000 then 5000 else (op - dictSum ex) * 69 / 100,
        ?_, Or.inl hc, ?_, ?_⟩
      · unfold applyVoucherDiscount
        rw [hg]
        simp
      · intro hs
        split_ifs with hcap
        · constructor
          · norm_num
          · linarith
        · constructor
          · linarith
          · linarith
      · intro hs
        split_ifs with hcap
        · exfalso
          linarith
        · constructor
          · linarith
          · linarith
    · subst hr
      by_cases ht : cust.tier = "PREMIUM"
      · right
        refine ⟨(op - dictSum ex) * 20 / 100, ?_, Or.inr hc, ?_, ?_⟩
        · unfold applyVoucherDiscount
          rw [hg]
          simp only [ht]
          norm_num
        · intro hs
          constructor
          · linarith
          · linarith
        · intro hs
          constructor
          · linarith
          · linarith
      · left
        unfold applyVoucherDiscount
        rw [hg]
        simp only [ht]
        norm_num
        intro hfalse
        exact absurd hfalse ht

theorem bankOffer_branch (pinfo : PaymentInfo) (op : ℚ) :
    (∀ ex, applyBankOffer BANK_OFFERS pinfo op ex = []) ∨
      ∃ nm β, ((nm = "ICICI - 10% instant discount" ∧ β = 10) ∨
               (nm = "HDFC - 15% instant discount" ∧ β = 15)) ∧
        ∀ ex, applyBankOffer BANK_OFFERS pinfo op ex
          = [(nm, (op - dictSum ex) * β / 100)] := by
  cases hb : pinfo.bank_name with
  | none =>
    left
    intro ex
    unfold applyBankOffer
    rw [hb]
  | some bank =>
    by_cases hm : pinfo.method = "CARD"
    · cases hg : dictGet BANK_OFFERS bank with
      | none =>
        left
        intro ex
        unfold applyBankOffer
        rw [hb]
        simp [hm, hg]
      | some rule =>
        rcases BANK_rule_cases hg with hr | hr
        · subst hr
          by_cases hlt : op < 1000
          · left
            intro ex
            unfold applyBankOffer
            rw [hb]
            simp [hm, hg, hlt]
          · right
            refine ⟨"ICICI - 10% instant discount", 10, Or.inl ⟨rfl, rfl⟩, ?_⟩
            intro ex
            unfold applyBankOffer
            rw [hb]
            simp [hm, hg, hlt]
        · subst hr
          by_cases hlt : op < 2000
          · left
            intro ex
            unfold applyBankOffer
            rw [hb]
            simp [hm, hg, hlt]
          · right
            refine ⟨"HDFC - 15% instant discount", 15, Or.inr ⟨rfl, rfl⟩, ?_⟩
            intro ex
            unfold applyBankOffer
            rw [hb]
            simp [hm, hg, hlt]
    · left
      intro ex
      unfold applyBankOffer
      rw [hb]
      simp [hm]

/-! ## Decomposition of the full pipeline at the production tables -/

theorem pipelineDiscounts_none_eq (cart : List CartItem) (cust : CustomerProfile)
    (pay : Option PaymentInfo) :
    pipelineDiscounts productionTables cart cust pay none
      = match pay with
        | some p =>
          dictUpdate (brandcatMap cart)
            (applyBankOffer BANK_OFFERS p (originalPriceOf cart) (brandcatMap cart))
        | none => brandcatMap cart := rfl

/-- The `applied_discounts` mapping after the voucher step of the pipeline
(steps 1-2 of `calculate_cart_discounts`) at the production tables. -/
def voucherStageMap (cart : List CartItem) (cust : CustomerProfile) (code : String) :
    List (String × ℚ) :=
  if code = "" then brandcatMap cart
  else
    dictUpdate (brandcatMap cart)
      (applyVoucherDiscount VOUCHER_CODES code cust (originalPriceOf cart) (brandcatMap cart))

theorem pipelineDiscounts_some_eq (cart : List CartItem) (cust : CustomerProfile)
    (pay : Option PaymentInfo) (code : String) :
    pipelineDiscounts productionTables cart cust pay (some code)
      = match pay with
        | some p =>
          dictUpdate (voucherStageMap cart cust code)
            (applyBankOffer BANK_OFFERS p (originalPriceOf cart)
              (voucherStageMap cart cust code))
        | none => voucherStageMap cart cust code := rfl

theorem voucherKey_not_in_brandcat (cart : List CartItem) {code : String}
    (h : code = "SUPER69" ∨ code = "VIP20") :
    ("Voucher " ++ code) ∉ dictKeys (brandcatMap cart) := by
  intro hmem
  rcases h with h | h <;> subst h <;>
    rcases brandcatMap_keys cart _ hmem with he | he | he | he <;> simp at he

theorem dictSum_dictUpdate_single (d : List (String × ℚ)) {k : String} {v : ℚ}
    (h : k ∉ dictKeys d) :
    dictSum (dictUpdate d [(k, v)]) = dictSum d + v ∧
      dictKeys (dictUpdate d [(k, v)]) = dictKeys d ++ [k] := by
  rw [dictUpdate_eq_append [(k, v)] d (by simp [dictKeys])
    (by intro k2 hk2; simp [dictKeys] at hk2; subst hk2; exact h)]
  constructor
  · rw [dictSum_append, dictSum_single]
  · rw [dictKeys_append]
    rfl

theorem voucherStageMap_sum (cart : List CartItem) (cust : CustomerProfile) (code : String) :
    ∃ vamt,
      dictSum (voucherStageMap cart cust code) = dictSum (brandcatMap cart) + vamt ∧
      (∀ k ∈ dictKeys (voucherStageMap cart cust code),
        k = "Min 40% off on PUMA" ∨ k = "30% off on Nike" ∨
          k = "Extra 10% off on T-shirts" ∨ k = "15% off on Jeans" ∨
          k = "Voucher SUPER69" ∨ k = "Voucher VIP20") ∧
      (0 ≤ originalPriceOf cart - dictSum (brandcatMap cart) →
        0 ≤ vamt ∧ vamt ≤ originalPriceOf cart - dictSum (brandcatMap cart)) ∧
      (originalPriceOf cart - dictSum (brandcatMap cart) < 0 →
        vamt ≤ 0 ∧ originalPriceOf cart - dictSum (brandcatMap cart) - vamt ≤ 0) := by
  have hMkeys6 : ∀ k ∈ dictKeys (brandcatMap cart),
      k = "Min 40% off on PUMA" ∨ k = "30% off on Nike" ∨
        k = "Extra 10% off on T-shirts" ∨ k = "15% off on Jeans" ∨
        k = "Voucher SUPER69" ∨ k = "Voucher VIP20" := by
    intro k hk
    rcases brandcatMap_keys cart k hk with he | he | he | he
    · exact Or.inl he
    · exact Or.inr (Or.inl he)
    · exact Or.inr (Or.inr (Or.inl he))
    · exact Or.inr (Or.inr (Or.inr (Or.inl he)))
  unfold voucherStageMap
  by_cases hc : code = ""
  · rw [if_pos hc]
    exact ⟨0, by ring, hMkeys6, fun hs => ⟨le_refl 0, by linarith⟩,
      fun hs => ⟨le_refl 0, by linarith⟩⟩
  · rw [if_neg hc]
    rcases voucherDiscount_facts code cust (originalPriceOf cart) (brandcatMap cart) with
      hnil | ⟨amt, hVeq, hcodes, hf1, hf2⟩
    · rw [hnil, dictUpdate_nil]
      exact ⟨0, by ring, hMkeys6, fun hs => ⟨le_refl 0, by linarith⟩,
        fun hs => ⟨le_refl 0, by linarith⟩⟩
    · rw [hVeq]
      have hkey : ("Voucher " ++ code) ∉ dictKeys (brandcatMap cart) :=
        voucherKey_not_in_brandcat cart hcodes
      rcases dictSum_dictUpdate_single (brandcatMap cart) hkey with ⟨hsum, hkeys⟩
      refine ⟨amt, hsum, ?_, hf1, hf2⟩
      intro k hk
      rw [hkeys, List.mem_append] at hk
      rcases hk with hk | hk
      · exact hMkeys6 k hk
      · simp at hk
        rcases hcodes with hcc | hcc <;> subst hcc <;> rw [hk]
        · exact Or.inr (Or.inr (Or.inr (Or.inr (Or.inl rfl))))
        · exact Or.inr (Or.inr (Or.inr (Or.inr (Or.inr rfl))))

theorem bank_stage_sum (pay : Option PaymentInfo) (op : ℚ) :
    ∃ β, 0 ≤ β ∧ β ≤ 1 ∧
      ∀ M2 : List (String × ℚ),
        (∀ k ∈ dictKeys M2,
          k = "Min 40% off on PUMA" ∨ k = "30% off on Nike" ∨
            k = "Extra 10% off on T-shirts" ∨ k = "15% off on Jeans" ∨
            k = "Voucher SUPER69" ∨ k = "Voucher VIP20") →
        dictSum (match pay with
                 | some p => dictUpdate M2 (applyBankOffer BANK_OFFERS p op M2)
                 | none => M2)
          = dictSum M2 + (op - dictSum M2) * β := by
  cases pay with
  | none => exact ⟨0, le_refl 0, by norm_num, fun M2 _ => by ring⟩
  | some pinfo =>
    rcases bankOffer_branch pinfo op with hK | ⟨nm, β0, hnm, hK⟩
    · refine ⟨0, le_refl 0, by norm_num, fun M2 _ => ?_⟩
      simp only
      rw [hK M2, dictUpdate_nil]
      ring
    · refine ⟨β0 / 100, ?_, ?_, ?_⟩
      · rcases hnm with ⟨_, h⟩ | ⟨_, h⟩ <;> subst h <;> norm_num
      · rcases hnm with ⟨_, h⟩ | ⟨_, h⟩ <;> subst h <;> norm_num
      · intro M2 hkeys
        have hnotin : nm ∉ dictKeys M2 := by
          intro hmem
          rcases hkeys nm hmem with he | he | he | he | he | he <;>
            rcases hnm with ⟨hn, _⟩ | ⟨hn, _⟩ <;> rw [hn] at he <;> simp at he
        simp only
        rw [hK M2, (dictSum_dictUpdate_single M2 hnotin).1]
        ring

theorem pipelineDiscounts_sum_pair (cart : List CartItem) (cust : CustomerProfile)
    (pay : Option PaymentInfo) (code : String) :
    ∃ vamt β, 0 ≤ β ∧ β ≤ 1 ∧
      dictSum (pipelineDiscounts productionTables cart cust pay none)
        = dictSum (brandcatMap cart)
          + (originalPriceOf cart - dictSum (brandcatMap cart)) * β ∧
      dictSum (pipelineDiscounts productionTables cart cust pay (some code))
        = dictSum (brandcatMap cart) + vamt
          + (originalPriceOf cart - dictSum (brandcatMap cart) - vamt) * β ∧
      (0 ≤ originalPriceOf cart - dictSum (brandcatMap cart) →
        0 ≤ vamt ∧ vamt ≤ originalPriceOf cart - dictSum (brandcatMap cart)) ∧
      (originalPriceOf cart - dictSum (brandcatMap cart) < 0 →
        vamt ≤ 0 ∧ originalPriceOf cart - dictSum (brandcatMap cart) - vamt ≤ 0) := by
  obtain ⟨β, hβ0, hβ1, hbank⟩ := bank_stage_sum pay (originalPriceOf cart)
  obtain ⟨vamt, hsum, hkeys, hvf1, hvf2⟩ := voucherStageMap_sum cart cust code
  have hMkeys6 : ∀ k ∈ dictKeys (brandcatMap cart),
      k = "Min 40% off on PUMA" ∨ k = "30% off on Nike" ∨
        k = "Extra 10% off on T-shirts" ∨ k = "15% off on Jeans" ∨
        k = "Voucher SUPER69" ∨ k = "Voucher VIP20" := by
    intro k hk
    rcases brandcatMap_keys cart k hk with he | he | he | he
    · exact Or.inl he
    · exact Or.inr (Or.inl he)
    · exact Or.inr (Or.inr (Or.inl he))
    · exact Or.inr (Or.inr (Or.inr (Or.inl he)))
  refine ⟨vamt, β, hβ0, hβ1, ?_, ?_, hvf1, hvf2⟩
  · rw [pipelineDiscounts_none_eq]
    exact hbank (brandcatMap cart) hMkeys6
  · rw [pipelineDiscounts_some_eq, hbank (voucherStageMap cart cust code) hkeys, hsum]
    ring

/-! ## Top-level reductions and result accessors -/

theorem resFinal_ok (d : DiscountedPrice) : resFinal (Except.ok d) = d.final_price := rfl

theorem resOriginal_ok (d : DiscountedPrice) : resOriginal (Except.ok d) = d.original_price := rfl

theorem resDiscounts_ok (d : DiscountedPrice) :
    resDiscounts (Except.ok d) = d.applied_discounts := rfl

theorem buildResponse_final (op : ℚ) (M : List (String × ℚ)) :
    (buildDiscountedPriceResponse op M).final_price = quantize2 (max 0 (op - dictSum M)) := by
  have h : (buildDiscountedPriceResponse op M).final_price
      = quantize2 (if op - dictSum M < 0 then 0 else op - dictSum M) := rfl
  rw [h, ite_neg_eq_max]

theorem buildResponse_orig (op : ℚ) (M : List (String × ℚ)) :
    (buildDiscountedPriceResponse op M).original_price = op := rfl

theorem buildResponse_discounts (op : ℚ) (M : List (String × ℚ)) :
    (buildDiscountedPriceResponse op M).applied_discounts = M := rfl

theorem calculate_ok (cart : List CartItem) (cust : CustomerProfile)
    (pay : Option PaymentInfo) (v : Option String) (hne : cart ≠ [])
    (hval : validateItems cart = none) :
    calculate_cart_discounts cart cust pay v
      = .ok (buildDiscountedPriceResponse (originalPriceOf cart)
          (pipelineDiscounts productionTables cart cust pay v)) := by
  unfold calculate_cart_discounts calculateCartDiscountsWith
  rw [if_neg hne, hval]

/-! ## Concrete fixtures used by witnesses and counterexamples -/

/-- A SILVER-tier customer (the `regular_customer` fixture). -/
def custSilver : CustomerProfile :=
  { id := "CUST-002", tier := "SILVER", member_since := 0, total_purchases := 5000 }

/-- A product matched by no brand or category rule, with a sub-cent price. -/
def prodPlain : Product :=
  { id := "SKU-1", brand := "Acme", brand_tier := BrandTier.REGULAR, category := "Misc",
    base_price := 1006 / 1000, current_price := 1006 / 1000 }

/-- One-item cart whose original price 1.006 is not a whole number of cents. -/
def cartPlain : List CartItem := [{ product := prodPlain, quantity := 1, size := "M" }]

/-- A rule-free product with a whole price. -/
def prodWhole : Product :=
  { id := "SKU-2", brand := "Acme", brand_tier := BrandTier.REGULAR, category := "Misc",
    base_price := 7, current_price := 7 }

/-- One-item cart with original price 21. -/
def cartWhole : List CartItem := [{ product := prodWhole, quantity := 3, size := "M" }]

/-- One-item cart with original price 0.145: a half-cent rounding boundary. -/
def cartHalfCent : List CartItem :=
  [{ product := { id := "SKU-3", brand := "Acme", brand_tier := BrandTier.REGULAR,
                  category := "Misc", base_price := 145 / 1000, current_price := 145 / 1000 },
     quantity := 1, size := "M" }]

/-- An ICICI card payment (the `icici_card` fixture). -/
def icici_card : PaymentInfo := { method := "CARD", bank_name := some "ICICI",
                                  card_type := some "CREDIT" }

/-- A UPI payment (the `upi_payment` fixture). -/
def upi_payment : PaymentInfo := { method := "UPI", bank_name := none, card_type := none }

/-- Rule tables in which a brand rule and a category rule share the display
name "X" (the production tables never collide, so the cross-family merge
behaviour is only observable on such a configuration). -/
def collidingTables : RuleTables :=
  { brand := [("B", { discount := 40, name := "X", min_purchase := none })],
    category := [("C", { discount := 10, name := "X", excluded_brands := [] })],
    bank := [], voucher := [] }

/-- One item of brand `B` and category `C`, matching both colliding rules. -/
def collidingCart : List CartItem :=
  [{ product := { id := "P1", brand := "B", brand_tier := BrandTier.REGULAR, category := "C",
                  base_price := 100, current_price := 100 },
     quantity := 1, size := "M" }]

/-- Two items of brand `B`, to observe within-family accumulation. -/
def collidingCart2 : List CartItem :=
  [{ product := { id := "P1", brand := "B", brand_tier := BrandTier.REGULAR, category := "Misc",
                  base_price := 100, current_price := 100 },
     quantity := 1, size := "M" },
   { product := { id := "P2", brand := "B", brand_tier := BrandTier.REGULAR, category := "Misc",
                  base_price := 150, current_price := 150 },
     quantity := 2, size := "L" }]

/-! ## Claim theorems -/

/-- C9: For an empty cart, `calculate_cart_discounts` returns
`original_price = 0`, `final_price = 0`, an empty `applied_discounts`
mapping and the fixed message "Empty cart", for every customer, payment
info and voucher code, short-circuiting before any rule evaluation. -/
theorem claim_C9_empty_cart (cust : CustomerProfile) (pay : Option PaymentInfo)
    (v : Option String) :
    calculate_cart_discounts [] cust pay v
      = .ok { original_price := 0, final_price := 0, applied_discounts := [],
              message := "Empty cart" } := rfl

/-- C7: `validate_discount_code` returns `true` iff the code is in the
voucher table and the rule either has no required tier or requires exactly
the customer's tier; the result is independent of the cart contents. -/
theorem claim_C7_validate_code (code : String) (cart : List CartItem)
    (cust : CustomerProfile) :
    (validate_discount_code code cart cust = true ↔
      ∃ r, dictGet VOUCHER_CODES code = some r ∧
        (r.required_tier = none ∨ r.required_tier = some cust.tier)) ∧
    (∀ cart2, validate_discount_code code cart2 cust = validate_discount_code code cart cust) := by
  constructor
  · unfold validate_discount_code
    cases hg : dictGet VOUCHER_CODES code with
    | none => simp
    | some rule =>
      show (match rule.required_tier with
            | some t => if cust.tier ≠ t then false else true
            | none => true) = true ↔
          ∃ r, some rule = some r ∧ (r.required_tier = none ∨ r.required_tier = some cust.tier)
      cases ht : rule.required_tier with
      | none =>
        constructor
        · intro _
          exact ⟨rule, rfl, Or.inl ht⟩
        · intro _
          rfl
      | some t =>
        show (if cust.tier ≠ t then false else true) = true ↔
          ∃ r, some rule = some r ∧ (r.required_tier = none ∨ r.required_tier = some cust.tier)
        by_cases hct : cust.tier = t
        · rw [if_neg (by simp [hct])]
          constructor
          · intro _
            exact ⟨rule, rfl, Or.inr (by rw [ht, hct])⟩
          · intro _
            rfl
        · rw [if_pos hct]
          constructor
          · intro hc
            exact absurd hc (by simp)
          · rintro ⟨r, hr, hcase⟩
            have hre : rule = r := Option.some.inj hr
            subst hre
            rcases hcase with hcase | hcase
            · rw [ht] at hcase
              cases hcase
            · rw [ht] at hcase
              exact absurd (Option.some.inj hcase).symm hct
  · intro cart2
    rfl

/-- C4: pricing fails (raises) exactly when some cart item has a negative
quantity or its product has a negative base or current price; in every
other situation — including all ineligibility conditions — it returns an
ordinary result. -/
theorem claim_C4_error_iff (cart : List CartItem) (cust : CustomerProfile)
    (pay : Option PaymentInfo) (v : Option String) :
    (∃ e, calculate_cart_discounts cart cust pay v = .error e) ↔
      ∃ i ∈ cart, i.quantity < 0 ∨ i.product.base_price < 0 ∨ i.product.current_price < 0 := by
  unfold calculate_cart_discounts calculateCartDiscountsWith
  by_cases hne : cart = []
  · subst hne
    simp
  · rw [if_neg hne]
    cases hv : validateItems cart with
    | some e =>
      constructor
      · intro _
        by_contra hno
        push_neg at hno
        have hnone : validateItems cart = none := by
          rw [validateItems_eq_none_iff]
          intro i hi
          have h3 := hno i hi
          push_neg at h3
          exact ⟨h3.1, h3.2.1, h3.2.2⟩
        rw [hnone] at hv
        cases hv
      · intro _
        exact ⟨e, rfl⟩
    | none =>
      constructor
      · rintro ⟨e, he⟩
        cases he
      · rintro ⟨i, hi, hbad⟩
        have hok := (validateItems_eq_none_iff cart).mp hv i hi
        rcases hbad with h | h | h
        · exact absurd h (not_lt.mpr hok.1)
        · exact absurd h (not_lt.mpr hok.2.1)
        · exact absurd h (not_lt.mpr hok.2.2)

/-- C8: for every cart accepted by input validation, the result's
`original_price` is the sum of `base_price × quantity` over the cart
items — an expression independent of customer, payment info and voucher. -/
theorem claim_C8_original_price (cart : List CartItem) (cust : CustomerProfile)
    (pay : Option PaymentInfo) (v : Option String) (hval : validateItems cart = none) :
    resOriginal (calculate_cart_discounts cart cust pay v)
      = (cart.map (fun i => i.product.base_price * (i.quantity : ℚ))).sum := by
  by_cases hne : cart = []
  · subst hne
    rfl
  · rw [calculate_ok cart cust pay v hne hval, resOriginal_ok, buildResponse_orig]
    rfl

/-- Witness for C8 at a concrete cart: original price 21 = 7 × 3. -/
theorem claim_C8_witness :
    resOriginal (calculate_cart_discounts cartWhole custSilver none none) = 21 := by
  have h := claim_C8_original_price cartWhole custSilver none none
    (by norm_num [validateItems, cartWhole, prodWhole])
  rw [h]
  norm_num [cartWhole, prodWhole]

/-- C10: the final 2-decimal quantization is round-half-to-even: for every
validated cart the returned `final_price` equals
`quantize2 (max 0 (original_price - total_discount))`, where `quantize2`
rounds to the nearest cent with exact half-cents going to the even cent
(0.125 → 0.12, 0.135 → 0.14, 0.145 → 0.14 — the last would be 0.15 under
half-up). -/
theorem claim_C10_half_even_rounding (cart : List CartItem) (cust : CustomerProfile)
    (pay : Option PaymentInfo) (v : Option String) (hval : validateItems cart = none) :
    resFinal (calculate_cart_discounts cart cust pay v)
      = quantize2 (max 0 (resOriginal (calculate_cart_discounts cart cust pay v)
          - dictSum (resDiscounts (calculate_cart_discounts cart cust pay v)))) ∧
    quantize2 (125 / 1000) = 12 / 100 ∧ quantize2 (135 / 1000) = 14 / 100 ∧
    quantize2 (145 / 1000) = 14 / 100 := by
  refine ⟨?_, ?_, ?_, ?_⟩
  · by_cases hne : cart = []
    · subst hne
      rw [show calculate_cart_discounts [] cust pay v
          = Except.ok { original_price := 0, final_price := 0, applied_discounts := [],
                        message := "Empty cart" } from rfl,
        resFinal_ok, resOriginal_ok, resDiscounts_ok]
      show (0 : ℚ) = quantize2 (max 0 (0 - dictSum []))
      rw [show dictSum [] = 0 from rfl]
      rw [sub_zero, max_self, quantize2_zero]
    · rw [calculate_ok cart cust pay v hne hval, resFinal_ok, resOriginal_ok, resDiscounts_ok,
        buildResponse_final, buildResponse_orig, buildResponse_discounts]
  · norm_num [quantize2, roundHalfEven]
  · norm_num [quantize2, roundHalfEven]
  · norm_num [quantize2, roundHalfEven]

/-- Witness for C10 at the half-cent cart: original 0.145 rounds to final
price 0.14 (even cent). -/
theorem claim_C10_witness :
    validateItems cartHalfCent = none ∧
      resFinal (calculate_cart_discounts cartHalfCent custSilver none none)
        = quantize2 (max 0 (resOriginal (calculate_cart_discounts cartHalfCent custSilver none none)
            - dictSum (resDiscounts (calculate_cart_discounts cartHalfCent custSilver none none)))) :=
  ⟨by norm_num [validateItems, cartHalfCent],
   (claim_C10_half_even_rounding cartHalfCent custSilver none none
     (by norm_num [validateItems, cartHalfCent])).1⟩

/-- The voucher contribution when the code is found and the tier gate
passes: a single entry with the raw amount, cap-clamped when configured. -/
theorem applyVoucherDiscount_eq_of (table : List (String × VoucherRule)) (code : String)
    (cust : CustomerProfile) (op : ℚ) (ex : List (String × ℚ)) (rule : VoucherRule)
    (hlook : dictGet table code = some rule)
    (htier : rule.required_tier = none ∨ rule.required_tier = some cust.tier) :
    applyVoucherDiscount table code cust op ex
      = [("Voucher " ++ code,
          match rule.max_discount with
          | some cap => if (op - dictSum ex) * rule.discount / 100 > cap then cap
                        else (op - dictSum ex) * rule.discount / 100
          | none => (op - dictSum ex) * rule.discount / 100)] := by
  unfold applyVoucherDiscount
  rw [hlook]
  show (let tierMismatch : Bool :=
          match rule.required_tier with
          | some t => cust.tier ≠ t
          | none => false
        if tierMismatch then []
        else
          let total_after_discounts := op - dictSum ex
          let voucher_discount := total_after_discounts * rule.discount / 100
          let voucher_discount :=
            match rule.max_discount with
            | some cap => if voucher_discount > cap then cap else voucher_discount
            | none => voucher_discount
          [("Voucher " ++ code, voucher_discount)]) = _
  rcases htier with h | h <;> rw [h] <;> simp

/-- C5: whenever the supplied voucher code is in the table and its tier
requirement (if any) is met, the voucher contribution is keyed
"Voucher {code}" and equals `(original_price - discounts so far) * pct/100`,
clamped with `min` to the cap when one is configured; with a cap the amount
never exceeds the cap. -/
theorem claim_C5_voucher_amount (table : List (String × VoucherRule)) (code : String)
    (cust : CustomerProfile) (op : ℚ) (ex : List (String × ℚ)) (rule : VoucherRule)
    (hlook : dictGet table code = some rule)
    (htier : rule.required_tier = none ∨ rule.required_tier = some cust.tier) :
    ∃ amt, applyVoucherDiscount table code cust op ex = [("Voucher " ++ code, amt)] ∧
      (rule.max_discount = none → amt = (op - dictSum ex) * rule.discount / 100) ∧
      (∀ cap, rule.max_discount = some cap →
        amt = min ((op - dictSum ex) * rule.discount / 100) cap ∧ amt ≤ cap) := by
  rw [applyVoucherDiscount_eq_of table code cust op ex rule hlook htier]
  cases hcap : rule.max_discount with
  | none =>
    refine ⟨(op - dictSum ex) * rule.discount / 100, rfl, fun _ => rfl, ?_⟩
    intro cap hc
    exact absurd hc (by simp)
  | some cap =>
    refine ⟨if (op - dictSum ex) * rule.discount / 100 > cap then cap
            else (op - dictSum ex) * rule.discount / 100, rfl, ?_, ?_⟩
    · intro h0
      exact absurd h0 (by simp)
    · intro cap2 hc2
      have he : cap = cap2 := Option.some.inj hc2
      subst he
      constructor
      · split_ifs with hgt
        · exact (min_eq_right (le_of_lt hgt)).symm
        · exact (min_eq_left (not_lt.mp hgt)).symm
      · split_ifs with hgt
        · exact le_refl cap
        · exact not_lt.mp hgt

/-- Witness for C5: SUPER69 (69%, cap 5000) on subtotal 10000 with no prior
discounts — the raw 6900 is clamped to the 5000 cap. -/
theorem claim_C5_witness :
    ∃ amt, applyVoucherDiscount VOUCHER_CODES "SUPER69" custSilver 10000 []
        = [("Voucher " ++ "SUPER69", amt)] ∧ amt = 5000 ∧ amt ≤ 5000 := by
  obtain ⟨amt, heq, hnone, hsome⟩ := claim_C5_voucher_amount VOUCHER_CODES "SUPER69" custSilver
    10000 [] { discount := 69, name := "Super Sale Voucher", max_discount := some 5000,
               required_tier := none }
    (by simp [VOUCHER_CODES, dictGet]) (Or.inl rfl)
  obtain ⟨hmin, hle⟩ := hsome 5000 rfl
  refine ⟨amt, heq, ?_, hle⟩
  rw [hmin]
  norm_num [dictSum]

/-- C6: a bank offer contributes only when the payment method is "CARD" and
the bank name is a key of the bank table; with a configured minimum
purchase the contribution is empty whenever `original_price` (not the
post-discount subtotal) is below it; otherwise the contribution is the
rule's display name mapped to `(original_price - prior discounts) * pct/100`. -/
theorem claim_C6_bank_offer (table : List (String × BankRule)) (pinfo : PaymentInfo)
    (op : ℚ) (ex : List (String × ℚ)) :
    (pinfo.method ≠ "CARD" → applyBankOffer table pinfo op ex = []) ∧
    (pinfo.bank_name = none → applyBankOffer table pinfo op ex = []) ∧
    (∀ b, pinfo.bank_name = some b → dictGet table b = none →
      applyBankOffer table pinfo op ex = []) ∧
    (∀ b rule mp, pinfo.method = "CARD" → pinfo.bank_name = some b →
      dictGet table b = some rule → rule.min_purchase = some mp → op < mp →
      applyBankOffer table pinfo op ex = []) ∧
    (∀ b rule, pinfo.method = "CARD" → pinfo.bank_name = some b →
      dictGet table b = some rule → (∀ mp, rule.min_purchase = some mp → ¬ op < mp) →
      applyBankOffer table pinfo op ex
        = [(rule.name, (op - dictSum ex) * rule.discount / 100)]) := by
  refine ⟨?_, ?_, ?_, ?_, ?_⟩
  · intro hm
    unfold applyBankOffer
    cases hb : pinfo.bank_name with
    | none => rfl
    | some b => simp [hm]
  · intro hb
    unfold applyBankOffer
    rw [hb]
  · intro b hb hgl
    unfold applyBankOffer
    rw [hb]
    by_cases hm : pinfo.method = "CARD"
    · simp [hm, hgl]
    · simp [hm]
  · intro b rule mp hm hb hgl hmp hlt
    unfold applyBankOffer
    rw [hb]
    simp [hm, hgl, hmp, hlt]
  · intro b rule hm hb hgl hmp
    unfold applyBankOffer
    rw [hb]
    cases hc : rule.min_purchase with
    | none => simp [hm, hgl, hc]
    | some mp => simp [hm, hgl, hc, hmp mp hc]

/-- Witness for C6: the five situations at concrete inputs — UPI payment,
card without bank, unknown bank, ICICI below its 1000 minimum, and ICICI
above it (10% of the remaining subtotal). -/
theorem claim_C6_witness :
    applyBankOffer BANK_OFFERS upi_payment 5000 [] = [] ∧
    applyBankOffer BANK_OFFERS { method := "CARD", bank_name := none, card_type := none }
      5000 [] = [] ∧
    applyBankOffer BANK_OFFERS { method := "CARD", bank_name := some "SBI", card_type := none }
      5000 [] = [] ∧
    applyBankOffer BANK_OFFERS icici_card 500 [] = [] ∧
    applyBankOffer BANK_OFFERS icici_card 5000 []
      = [("ICICI - 10% instant discount", (5000 - dictSum []) * 10 / 100)] := by
  refine ⟨?_, ?_, ?_, ?_, ?_⟩
  · exact (claim_C6_bank_offer BANK_OFFERS upi_payment 5000 []).1
      (by simp [upi_payment])
  · exact (claim_C6_bank_offer BANK_OFFERS
      { method := "CARD", bank_name := none, card_type := none } 5000 []).2.1 rfl
  · exact (claim_C6_bank_offer BANK_OFFERS
      { method := "CARD", bank_name := some "SBI", card_type := none } 5000 []).2.2.1
      "SBI" rfl (by simp [BANK_OFFERS, dictGet])
  · exact (claim_C6_bank_offer BANK_OFFERS icici_card 500 []).2.2.2.1 "ICICI"
      { discount := 10, name := "ICICI - 10% instant discount", min_purchase := some 1000 }
      1000 rfl rfl (by simp [BANK_OFFERS, dictGet]) rfl (by norm_num)
  · exact (claim_C6_bank_offer BANK_OFFERS icici_card 5000 []).2.2.2.2 "ICICI"
      { discount := 10, name := "ICICI - 10% instant discount", min_purchase := some 1000 }
      rfl rfl (by simp [BANK_OFFERS, dictGet])
      (by intro mp hmp; rw [show mp = 1000 from (Option.some.inj hmp).symm]; norm_num)

/-- C1 (amended): for every cart passing input validation, `final_price` is
nonnegative and exceeds `original_price` by at most half a cent (the final
rounding step can round up); whenever `original_price` is a whole number of
cents — in particular for all realistic whole-cent prices —
`final_price ≤ original_price` holds exactly. -/
theorem claim_C1_price_bounds (cart : List CartItem) (cust : CustomerProfile)
    (pay : Option PaymentInfo) (v : Option String) (hval : validateItems cart = none) :
    0 ≤ resFinal (calculate_cart_discounts cart cust pay v) ∧
    resFinal (calculate_cart_discounts cart cust pay v)
      ≤ resOriginal (calculate_cart_discounts cart cust pay v) + 1 / 200 ∧
    ((∃ n : ℤ, resOriginal (calculate_cart_discounts cart cust pay v) = (n : ℚ) / 100) →
      resFinal (calculate_cart_discounts cart cust pay v)
        ≤ resOriginal (calculate_cart_discounts cart cust pay v)) := by
  by_cases hne : cart = []
  · subst hne
    rw [show calculate_cart_discounts [] cust pay v
        = Except.ok { original_price := 0, final_price := 0, applied_discounts := [],
                      message := "Empty cart" } from rfl,
      resFinal_ok, resOriginal_ok]
    refine ⟨le_refl 0, by norm_num, fun _ => le_refl 0⟩
  · rw [calculate_ok cart cust pay v hne hval, resFinal_ok, resOriginal_ok,
      buildResponse_final, buildResponse_orig]
    have hcommon : ∃ vamt β, 0 ≤ β ∧ β ≤ 1 ∧
        dictSum (pipelineDiscounts productionTables cart cust pay v)
          = dictSum (brandcatMap cart) + vamt
            + (originalPriceOf cart - dictSum (brandcatMap cart) - vamt) * β ∧
        (0 ≤ originalPriceOf cart - dictSum (brandcatMap cart) →
          0 ≤ vamt ∧ vamt ≤ originalPriceOf cart - dictSum (brandcatMap cart)) ∧
        (originalPriceOf cart - dictSum (brandcatMap cart) < 0 →
          vamt ≤ 0 ∧ originalPriceOf cart - dictSum (brandcatMap cart) - vamt ≤ 0) := by
      cases v with
      | none =>
        obtain ⟨vamt, β, hβ0, hβ1, hnone, _, _, _⟩ :=
          pipelineDiscounts_sum_pair cart cust pay ""
        exact ⟨0, β, hβ0, hβ1, by rw [hnone]; ring,
          fun hs => ⟨le_refl 0, hs⟩, fun hs => ⟨le_refl 0, by linarith⟩⟩
      | some code =>
        obtain ⟨vamt, β, hβ0, hβ1, _, hsome, hf1, hf2⟩ :=
          pipelineDiscounts_sum_pair cart cust pay code
        exact ⟨vamt, β, hβ0, hβ1, hsome, hf1, hf2⟩
    obtain ⟨vamt, β, hβ0, hβ1, hsum, hf1, hf2⟩ := hcommon
    rw [hsum]
    have hb : 0 ≤ dictSum (brandcatMap cart) := brandcatMap_sum_nonneg cart hval
    have hop : 0 ≤ originalPriceOf cart := originalPriceOf_nonneg cart hval
    by_cases hsign : 0 ≤ originalPriceOf cart - dictSum (brandcatMap cart)
    · obtain ⟨hv0, hvle⟩ := hf1 hsign
      have hx0 : 0 ≤ originalPriceOf cart
          - (dictSum (brandcatMap cart) + vamt
            + (originalPriceOf cart - dictSum (brandcatMap cart) - vamt) * β) := by
        nlinarith [mul_nonneg (by linarith :
          (0:ℚ) ≤ originalPriceOf cart - dictSum (brandcatMap cart) - vamt)
          (by linarith : (0:ℚ) ≤ 1 - β)]
      have hxle : originalPriceOf cart
          - (dictSum (brandcatMap cart) + vamt
            + (originalPriceOf cart - dictSum (brandcatMap cart) - vamt) * β)
          ≤ originalPriceOf cart := by
        have h1 : 0 ≤ (originalPriceOf cart - dictSum (brandcatMap cart) - vamt) * β :=
          mul_nonneg (by linarith) hβ0
        linarith
      rw [max_eq_right hx0]
      refine ⟨quantize2_nonneg hx0, ?_, ?_⟩
      · have := quantize2_le (originalPriceOf cart
          - (dictSum (brandcatMap cart) + vamt
            + (originalPriceOf cart - dictSum (brandcatMap cart) - vamt) * β))
        linarith
      · rintro ⟨n, hn⟩
        rw [hn]
        apply quantize2_le_grid
        rw [hn] at hxle
        exact hxle
    · push_neg at hsign
      obtain ⟨hv0, hsv⟩ := hf2 hsign
      have hxle0 : originalPriceOf cart
          - (dictSum (brandcatMap cart) + vamt
            + (originalPriceOf cart - dictSum (brandcatMap cart) - vamt) * β) ≤ 0 := by
        nlinarith [mul_nonneg (by linarith :
          (0:ℚ) ≤ -(originalPriceOf cart - dictSum (brandcatMap cart) - vamt))
          (by linarith : (0:ℚ) ≤ 1 - β)]
      rw [max_eq_left hxle0, quantize2_zero]
      exact ⟨le_refl 0, by linarith, fun _ => hop⟩

/-- Counterexample to C1 as stated: the one-item cart with base price
1.006 passes validation, receives no discount, and is rounded to a final
price of 1.01 > 1.006 = original price. -/
theorem claim_C1_counterexample :
    validateItems cartPlain = none ∧
    resOriginal (calculate_cart_discounts cartPlain custSilver none none) = 1006 / 1000 ∧
    resFinal (calculate_cart_discounts cartPlain custSilver none none) = 101 / 100 ∧
    ¬ resFinal (calculate_cart_discounts cartPlain custSilver none none)
        ≤ resOriginal (calculate_cart_discounts cartPlain custSilver none none) := by
  have hval : validateItems cartPlain = none := by norm_num [validateItems, cartPlain, prodPlain]
  have hne : cartPlain ≠ [] := by simp [cartPlain]
  have hM : pipelineDiscounts productionTables cartPlain custSilver none none = [] := by
    rw [pipelineDiscounts_none_eq, brandcatMap_eq]
    simp [applyBrandDiscounts, applyBrandDiscountsAux, applyCategoryDiscounts,
      applyCategoryDiscountsAux, dictGet, BRAND_DISCOUNTS, CATEGORY_DISCOUNTS,
      cartPlain, prodPlain]
  have horig : originalPriceOf cartPlain = 1006 / 1000 := by
    norm_num [originalPriceOf, cartPlain, prodPlain]
  rw [calculate_ok cartPlain custSilver none none hne hval, resFinal_ok, resOriginal_ok,
    buildResponse_final, buildResponse_orig, hM, horig]
  rw [show dictSum ([] : List (String × ℚ)) = 0 from rfl, sub_zero,
    max_eq_right (by norm_num : (0:ℚ) ≤ 1006 / 1000)]
  refine ⟨hval, rfl, ?_, ?_⟩
  · norm_num [quantize2, roundHalfEven]
  · norm_num [quantize2, roundHalfEven]

/-- Witness for the amended C1 at a concrete validated cart. -/
theorem claim_C1_witness :
    validateItems cartWhole = none ∧
    (0 ≤ resFinal (calculate_cart_discounts cartWhole custSilver none none) ∧
     resFinal (calculate_cart_discounts cartWhole custSilver none none)
       ≤ resOriginal (calculate_cart_discounts cartWhole custSilver none none) + 1 / 200 ∧
     ((∃ n : ℤ, resOriginal (calculate_cart_discounts cartWhole custSilver none none)
         = (n : ℚ) / 100) →
       resFinal (calculate_cart_discounts cartWhole custSilver none none)
         ≤ resOriginal (calculate_cart_discounts cartWhole custSilver none none))) :=
  ⟨by norm_num [validateItems, cartWhole, prodWhole],
   claim_C1_price_bounds cartWhole custSilver none none
     (by norm_num [validateItems, cartWhole, prodWhole])⟩

/-- C3: for every valid non-empty cart, customer and optional payment info,
supplying any voucher code yields a final price no greater than the final
price of the otherwise-identical request without a voucher code. -/
theorem claim_C3_voucher_monotone (cart : List CartItem) (cust : CustomerProfile)
    (pay : Option PaymentInfo) (code : String) (hne : cart ≠ [])
    (hval : validateItems cart = none) :
    resFinal (calculate_cart_discounts cart cust pay (some code))
      ≤ resFinal (calculate_cart_discounts cart cust pay none) := by
  rw [calculate_ok cart cust pay (some code) hne hval,
    calculate_ok cart cust pay none hne hval, resFinal_ok, resFinal_ok,
    buildResponse_final, buildResponse_final]
  obtain ⟨vamt, β, hβ0, hβ1, hnone, hsome, hf1, hf2⟩ :=
    pipelineDiscounts_sum_pair cart cust pay code
  rw [hnone, hsome]
  by_cases hsign : 0 ≤ originalPriceOf cart - dictSum (brandcatMap cart)
  · obtain ⟨hv0, hvle⟩ := hf1 hsign
    apply quantize2_mono
    apply max_le_max (le_refl (0 : ℚ))
    have hprod : 0 ≤ vamt * (1 - β) := mul_nonneg hv0 (by linarith)
    nlinarith [hprod]
  · push_neg at hsign
    obtain ⟨hv0, hsv⟩ := hf2 hsign
    have h1 : originalPriceOf cart
        - (dictSum (brandcatMap cart) + vamt
          + (originalPriceOf cart - dictSum (brandcatMap cart) - vamt) * β) ≤ 0 := by
      nlinarith [mul_nonneg (by linarith :
        (0:ℚ) ≤ -(originalPriceOf cart - dictSum (brandcatMap cart) - vamt))
        (by linarith : (0:ℚ) ≤ 1 - β)]
    have h2 : originalPriceOf cart
        - (dictSum (brandcatMap cart)
          + (originalPriceOf cart - dictSum (brandcatMap cart)) * β) ≤ 0 := by
      nlinarith [mul_nonneg (by linarith :
        (0:ℚ) ≤ -(originalPriceOf cart - dictSum (brandcatMap cart)))
        (by linarith : (0:ℚ) ≤ 1 - β)]
    rw [max_eq_left h1, max_eq_left h2]

/-- Witness for C3: the 21-rupee cart with voucher SUPER69 versus no
voucher. -/
theorem claim_C3_witness :
    cartWhole ≠ [] ∧ validateItems cartWhole = none ∧
      resFinal (calculate_cart_discounts cartWhole custSilver none (some "SUPER69"))
        ≤ resFinal (calculate_cart_discounts cartWhole custSilver none none) :=
  ⟨by simp [cartWhole], by norm_num [validateItems, cartWhole, prodWhole],
   claim_C3_voucher_monotone cartWhole custSilver none "SUPER69" (by simp [cartWhole])
     (by norm_num [validateItems, cartWhole, prodWhole])⟩

/-- Counterexample to C2: with a brand rule and a category rule that share
the display name "X" (brand 40%, category 10% on a 100-rupee item), the
merged mapping holds 10 — the later (category) amount — not the sum 50:
`dict.update` overwrites on cross-family key collision. -/
theorem claim_C2_counterexample :
    dictGet (resDiscounts (calculateCartDiscountsWith collidingTables collidingCart
        custSilver none none)) "X" = some 10 ∧
    ¬ dictGet (resDiscounts (calculateCartDiscountsWith collidingTables collidingCart
        custSilver none none)) "X" = some (40 + 10) := by
  have hval : validateItems collidingCart = none := by norm_num [validateItems, collidingCart]
  have hcalc : calculateCartDiscountsWith collidingTables collidingCart custSilver none none
      = .ok (buildDiscountedPriceResponse (originalPriceOf collidingCart)
          (pipelineDiscounts collidingTables collidingCart custSilver none none)) := by
    unfold calculateCartDiscountsWith
    rw [if_neg (by simp [collidingCart]), hval]
  have hM : pipelineDiscounts collidingTables collidingCart custSilver none none
      = [("X", 10)] := by
    norm_num [pipelineDiscounts, collidingTables, collidingCart, applyBrandDiscounts,
      applyBrandDiscountsAux, applyCategoryDiscounts, applyCategoryDiscountsAux, dictGet,
      dictGetD, dictUpdate, dictSet, dictMem, originalPriceOf, dictSum]
  rw [hcalc, resDiscounts_ok, buildResponse_discounts, hM]
  constructor
  · simp [dictGet]
  · norm_num [dictGet]

/-- C2 (amended): within one rule family colliding display names are
summed, but across families the merge uses dict-update semantics, so the
pipeline keeps only the later family's amount under a colliding name (the
brand 40 is overwritten by the category 10); with the production tables no
cross-family collision can occur because all eight display names are
pairwise distinct. -/
theorem claim_C2_amended :
    resDiscounts (calculateCartDiscountsWith collidingTables collidingCart
        custSilver none none) = [("X", 10)] ∧
    applyBrandDiscounts collidingTables.brand collidingCart = [("X", 40)] ∧
    applyCategoryDiscounts collidingTables.category collidingCart = [("X", 10)] ∧
    applyBrandDiscounts collidingTables.brand collidingCart2 = [("X", 160)] ∧
    (["Min 40% off on PUMA", "30% off on Nike", "Extra 10% off on T-shirts",
      "15% off on Jeans", "ICICI - 10% instant discount", "HDFC - 15% instant discount",
      "Voucher SUPER69", "Voucher VIP20"] : List String).Nodup := by
  have hval : validateItems collidingCart = none := by norm_num [validateItems, collidingCart]
  have hcalc : calculateCartDiscountsWith collidingTables collidingCart custSilver none none
      = .ok (buildDiscountedPriceResponse (originalPriceOf collidingCart)
          (pipelineDiscounts collidingTables collidingCart custSilver none none)) := by
    unfold calculateCartDiscountsWith
    rw [if_neg (by simp [collidingCart]), hval]
  have hM : pipelineDiscounts collidingTables collidingCart custSilver none none
      = [("X", 10)] := by
    norm_num [pipelineDiscounts, collidingTables, collidingCart, applyBrandDiscounts,
      applyBrandDiscountsAux, applyCategoryDiscounts, applyCategoryDiscountsAux, dictGet,
      dictGetD, dictUpdate, dictSet, dictMem, originalPriceOf, dictSum]
  refine ⟨?_, ?_, ?_, ?_, ?_⟩
  · rw [hcalc, resDiscounts_ok, buildResponse_discounts, hM]
  · norm_num [applyBrandDiscounts, applyBrandDiscountsAux, collidingTables, collidingCart,
      dictGet, dictGetD, dictSet, dictMem]
  · norm_num [applyCategoryDiscounts, applyCategoryDiscountsAux, collidingTables,
      collidingCart, dictGet, dictGetD, dictSet, dictMem]
  · norm_num [applyBrandDiscounts, applyBrandDiscountsAux, collidingTables, collidingCart2,
      dictGet, dictGetD, dictSet, dictMem]
  · simp
